import Mathlib

/-!
Formal model of the xorshiftr-wide pseudo-random generator (`src/lib.rs`):
a wide xorshiftR+ engine running `LANES` independent lanes in lockstep, with
seeding that rejects degenerate states and a buffer-fill routine that
processes the buffer in full groups of `LANES` words plus a remainder.

Machine integers (`u64`) are modelled as `Nat` with explicit reduction
modulo `2 ^ 64` exactly where the Rust code wraps (`<<` on `u64`,
`wrapping_add`). The entropy callback `provide_random_u64` is modelled as
the stream `e : Nat -> Nat` of the values it returns in order. The seeding
retry loop, which the library lets diverge on a pathological entropy
source, is modelled with an explicit fuel parameter: a run that would not
terminate within any fuel returns `none` for every fuel value.
-/

/-- Mirrors `const DEFAULT_SHL_FIRST: bool = false;` (lib.rs line 1). -/
def DEFAULT_SHL_FIRST : Bool := false

/-- Mirrors `const DEFAULT_SHL: u32 = 17;` (lib.rs line 2). -/
def DEFAULT_SHL : Nat := 17

/-- Mirrors `const DEFAULT_SHR: u32 = 23;` (lib.rs line 3). -/
def DEFAULT_SHR : Nat := 23

/-- The `u64` modulus `2 ^ 64`. -/
def U64 : Nat := 2 ^ 64

/-- The generator struct `XorshiftrWide<const LANES: usize>` with field
`state: [[u64; LANES]; 2]` (lib.rs lines 13-15); `state 0` is the "low"
half and `state 1` the "high" half of every lane. -/
@[ext]
structure XorshiftrWide (LANES : Nat) where
  state : Fin 2 → Fin LANES → Nat

/-- The const-generic configuration `<SHL_FIRST, SHL_BY, SHR_BY>` of
`fill_core` (lib.rs line 61). -/
structure FillConfig where
  SHL_FIRST : Bool
  SHL_BY : Nat
  SHR_BY : Nat

/-- The default configuration `(DEFAULT_SHL_FIRST, DEFAULT_SHL, DEFAULT_SHR)`
used by `fill_u64_buffer` (lib.rs line 95). -/
def defaultFillConfig : FillConfig :=
  ⟨DEFAULT_SHL_FIRST, DEFAULT_SHL, DEFAULT_SHR⟩

/-- The xor-shift update applied to one lane's `x` inside `fill_core`
(lib.rs lines 73-79): with `SHL_FIRST` the order is `x ^= x << SHL_BY` then
`x ^= x >> SHR_BY`, otherwise `x ^= x >> SHR_BY` then `x ^= x << SHL_BY`.
The left shift of a `u64` discards overflow, hence the `% U64`. -/
def xorshiftUpdate (c : FillConfig) (x : Nat) : Nat :=
  if c.SHL_FIRST then
    let x1 := x ^^^ ((x <<< c.SHL_BY) % U64)
    x1 ^^^ (x1 >>> c.SHR_BY)
  else
    let x1 := x ^^^ (x >>> c.SHR_BY)
    x1 ^^^ ((x1 <<< c.SHL_BY) % U64)

/-- One full-group step, the body of the per-chunk loop in `fill_core`
(lib.rs lines 70-81): for every lane `i`, `state[0][i]` becomes the old
`state[1][i]`, and `state[1][i]` becomes `x.wrapping_add(y)` where `x` is
the xor-shift update of the old `state[0][i]` and `y` the old
`state[1][i]`. -/
def stepGroup (c : FillConfig) {L : Nat} (s : XorshiftrWide L) : XorshiftrWide L :=
  ⟨fun b i =>
    if b = 0 then s.state 1 i
    else (xorshiftUpdate c (s.state 0 i) + s.state 1 i) % U64⟩

/-- The words written into one chunk by a full-group step
(`chunk_as_array[i] = x`, lib.rs line 80): the post-update `x` of each
lane, in lane order. -/
def groupOutputs (c : FillConfig) {L : Nat} (s : XorshiftrWide L) : List Nat :=
  List.ofFn fun i : Fin L => xorshiftUpdate c (s.state 0 i)

/-- The `for chunk in exact_width_chunks` loop of `fill_core` iterated over
`q` chunks: returns the words written, the state afterwards, and the number
of single-lane recurrence steps performed (each chunk steps every one of
the `L` lanes once). -/
def fillChunks (c : FillConfig) {L : Nat} (s : XorshiftrWide L) :
    Nat → List Nat × XorshiftrWide L × Nat
  | 0 => ([], s, 0)
  | q + 1 =>
    let rest := fillChunks c (stepGroup c s) q
    (groupOutputs c s ++ rest.1, rest.2.1, L + rest.2.2)

/-- Function `fill_core` (lib.rs lines 64-91) on a buffer of length `N`:
`chunks_exact_mut(LANES)` panics when `LANES = 0` (modelled as `none`);
otherwise `N / LANES` full chunks are processed, and a non-empty remainder
is served by one more full-group step into a `LANES`-word temporary buffer
of which only the first `N % LANES` words are copied out. Returns the
buffer contents, the final state, and the total recurrence step count. -/
def fill_core (c : FillConfig) {L : Nat} (s : XorshiftrWide L) (N : Nat) :
    Option (List Nat × XorshiftrWide L × Nat) :=
  if L = 0 then none
  else
    let full := fillChunks c s (N / L)
    if N % L = 0 then some full
    else
      let tmp := fillChunks c full.2.1 1
      some (full.1 ++ tmp.1.take (N % L), tmp.2.1, full.2.2 + tmp.2.2)

/-- Function `fill_u64_buffer` (lib.rs lines 94-96): `fill_core` at the default
configuration. -/
def fill_u64_buffer {L : Nat} (s : XorshiftrWide L) (N : Nat) :
    Option (List Nat × XorshiftrWide L × Nat) :=
  fill_core defaultFillConfig s N

/-- One state-cell assignment `*ptr = provide_random_u64()`
(lib.rs line 22). -/
def writeCell {L : Nat} (s : XorshiftrWide L) (b : Fin 2) (i : Fin L)
    (v : Nat) : XorshiftrWide L :=
  ⟨fun b' i' => if b' = b ∧ i' = i then v else s.state b' i'⟩

/-- The population double loop of `reseed` (lib.rs lines 20-24): entropy
values `e off, e (off+1), ...` are written into `state[0][0..L]` and then
`state[1][0..L]`, in that order. -/
def populateState {L : Nat} (s : XorshiftrWide L) (e : Nat → Nat)
    (off : Nat) : XorshiftrWide L :=
  (List.finRange L).foldl (fun acc i => writeCell acc 1 i (e (off + L + i.val)))
    ((List.finRange L).foldl (fun acc i => writeCell acc 0 i (e (off + i.val))) s)

/-- The `need_to_reseed` computation of `reseed` (lib.rs lines 25-41):
true when some lane's two state words coincide, or when two distinct lanes
share their `state[0]` or their `state[1]` word. -/
def need_to_reseed {L : Nat} (s : XorshiftrWide L) : Bool :=
  ((List.finRange L).any fun i => s.state 0 i == s.state 1 i) ||
    ((List.finRange L).any fun left =>
      (List.finRange L).any fun right =>
        decide (left < right) &&
          ((s.state 0 left == s.state 0 right) ||
            (s.state 1 left == s.state 1 right)))

/-- The retry loop of `reseed` (lib.rs lines 19-47), with explicit fuel for
the number of population attempts; `off` counts the entropy values consumed
so far (each attempt consumes `2 * L` of them). -/
def reseedLoop {L : Nat} (e : Nat → Nat) :
    Nat → Nat → XorshiftrWide L → Option (XorshiftrWide L)
  | 0, _, _ => none
  | fuel + 1, off, s =>
    let s1 := populateState s e off
    if need_to_reseed s1 then reseedLoop e fuel (off + 2 * L) s1
    else some s1

/-- Function `reseed` (lib.rs lines 18-47). -/
def reseed {L : Nat} (s : XorshiftrWide L) (e : Nat → Nat) (fuel : Nat) :
    Option (XorshiftrWide L) :=
  reseedLoop e fuel 0 s

/-- Function `new` (lib.rs lines 49-55): a zero-initialized state passed through
`reseed`. -/
def new (L : Nat) (e : Nat → Nat) (fuel : Nat) : Option (XorshiftrWide L) :=
  reseed ⟨fun _ _ => 0⟩ e fuel

/-- A sequence of `fill_u64_buffer` calls with the given buffer lengths,
collecting every buffer's contents. -/
def runFills (c : FillConfig) {L : Nat} (s : XorshiftrWide L) :
    List Nat → Option (List (List Nat) × XorshiftrWide L)
  | [] => some ([], s)
  | n :: ns =>
    match fill_core c s n with
    | none => none
    | some r => (runFills c r.2.1 ns).map fun t => (r.1 :: t.1, t.2)

/-- A whole generator run: seed via `new`, then perform the given sequence
of fill calls. -/
def runGenerator (L : Nat) (e : Nat → Nat) (fuel : Nat) (ns : List Nat) :
    Option (List (List Nat) × XorshiftrWide L) :=
  (new L e fuel).bind fun s => runFills defaultFillConfig s ns

/-- The single-lane recurrence step exactly as the spec's §4.2 words it:
save `y` as the new low word; update the old `x` by the two xor-shifts in
the configured order; the new high word is `x + y` with unsigned
wraparound; the step's output word is the post-update `x`. Returns
(new low, new high, output word). -/
def specLaneStep (shl_first : Bool) (S_L S_R x y : Nat) : Nat × Nat × Nat :=
  let x1 :=
    if shl_first then
      let a := x ^^^ ((x <<< S_L) % U64)
      a ^^^ (a >>> S_R)
    else
      let a := x ^^^ (x >>> S_R)
      a ^^^ ((a <<< S_L) % U64)
  (y, (x1 + y) % U64, x1)

/-- The no-degeneracy invariant of the spec's §3: no lane's two words
coincide, and no two distinct lanes share either coordinate. -/
def noDegeneracy {L : Nat} (s : XorshiftrWide L) : Prop :=
  (∀ i, s.state 0 i ≠ s.state 1 i) ∧
    ∀ i j, i ≠ j → ¬(s.state 0 i = s.state 0 j ∨ s.state 1 i = s.state 1 j)

theorem xorshiftUpdate_eq_spec (c : FillConfig) (x y : Nat) :
    xorshiftUpdate c x = (specLaneStep c.SHL_FIRST c.SHL_BY c.SHR_BY x y).2.2 := by
  rcases c with ⟨sf, sl, sr⟩
  cases sf <;> rfl

/-- C1: for every lane `i`, a single recurrence step under configuration
`(SHL_FIRST, SHL_BY, SHR_BY)` sets the new low word to the old high word,
updates the low word by the two xor-shifts in the configured order, sets
the new high word to the wrapping sum of the updated word and the old high
word, and writes the post-update word (not the sum) as the lane's output;
the default configuration is `(false, 17, 23)`. -/
theorem fill_step_matches_spec (c : FillConfig) {L : Nat}
    (s : XorshiftrWide L) (i : Fin L) :
    (stepGroup c s).state 0 i =
      (specLaneStep c.SHL_FIRST c.SHL_BY c.SHR_BY (s.state 0 i) (s.state 1 i)).1 ∧
    (stepGroup c s).state 1 i =
      (specLaneStep c.SHL_FIRST c.SHL_BY c.SHR_BY (s.state 0 i) (s.state 1 i)).2.1 ∧
    (groupOutputs c s)[i.val]? =
      some (specLaneStep c.SHL_FIRST c.SHL_BY c.SHR_BY (s.state 0 i) (s.state 1 i)).2.2 ∧
    DEFAULT_SHL_FIRST = false ∧ DEFAULT_SHL = 17 ∧ DEFAULT_SHR = 23 := by
  refine ⟨rfl, ?_, ?_, rfl, rfl, rfl⟩
  · show (xorshiftUpdate c (s.state 0 i) + s.state 1 i) % U64 = _
    rw [xorshiftUpdate_eq_spec c (s.state 0 i) (s.state 1 i)]
    rcases c with ⟨sf, sl, sr⟩
    cases sf <;> rfl
  · rw [← xorshiftUpdate_eq_spec c (s.state 0 i) (s.state 1 i)]
    simp [groupOutputs, List.getElem?_ofFn, i.isLt]

/-- C7: filling a zero-length buffer performs zero recurrence steps and
returns the state unchanged. -/
theorem fill_zero_noop {L : Nat} (s : XorshiftrWide L) (hL : 0 < L) :
    fill_u64_buffer s 0 = some ([], s, 0) := by
  simp [fill_u64_buffer, fill_core, Nat.pos_iff_ne_zero.mp hL, fillChunks]

/-- A concrete two-lane state used to instantiate the fill theorems. -/
def c2State : XorshiftrWide 2 :=
  ⟨fun b i =>
    if b = 0 then (if i.val = 0 then 1 else 100)
    else (if i.val = 0 then 2 else 200)⟩

/-- Witness for C7 at the concrete two-lane state. -/
theorem fill_zero_noop_witness :
    fill_u64_buffer c2State 0 = some ([], c2State, 0) :=
  fill_zero_noop c2State (by decide)

theorem foldl_writeCell_state {L : Nat} (b : Fin 2) (f : Fin L → Nat) :
    ∀ (l : List (Fin L)) (s : XorshiftrWide L) (b' : Fin 2) (i' : Fin L),
      ((l.foldl (fun acc i => writeCell acc b i (f i)) s).state b' i') =
        if b' = b ∧ i' ∈ l then f i' else s.state b' i'
  | [], s, b', i' => by simp
  | x :: l, s, b', i' => by
    rw [List.foldl_cons, foldl_writeCell_state b f l]
    by_cases hb : b' = b
    · subst hb
      by_cases hl : i' ∈ l
      · simp [hl]
      · by_cases hx : i' = x
        · subst hx
          simp [writeCell, hl]
        · simp [writeCell, hl, hx]
    · simp [writeCell, hb]

theorem populateState_state {L : Nat} (s : XorshiftrWide L) (e : Nat → Nat)
    (off : Nat) (b : Fin 2) (i : Fin L) :
    (populateState s e off).state b i = e (off + b.val * L + i.val) := by
  unfold populateState
  simp only [foldl_writeCell_state]
  match b with
  | 0 => simp
  | 1 => simp [Nat.add_assoc]

theorem populateState_indep {L : Nat} (s t : XorshiftrWide L) (e : Nat → Nat)
    (off : Nat) : populateState s e off = populateState t e off := by
  ext b i
  rw [populateState_state, populateState_state]

theorem reseedLoop_indep {L : Nat} (e : Nat → Nat) :
    ∀ (fuel off : Nat) (s t : XorshiftrWide L),
      reseedLoop e fuel off s = reseedLoop e fuel off t
  | 0, _, _, _ => rfl
  | fuel + 1, off, s, t => by
    simp only [reseedLoop]
    rw [populateState_indep s t]

/-- C8: the state produced by `reseed` depends only on the entropy stream,
never on the pre-existing state, so reseeding any instance agrees exactly
with fresh construction via `new` (which zero-initializes and runs the same
validate/retry path). -/
theorem reseed_eq_new {L : Nat} (s : XorshiftrWide L) (e : Nat → Nat)
    (fuel : Nat) : reseed s e fuel = new L e fuel :=
  reseedLoop_indep e fuel 0 s _

theorem reseedLoop_some_need {L : Nat} (e : Nat → Nat) :
    ∀ (fuel off : Nat) (s0 s : XorshiftrWide L),
      reseedLoop e fuel off s0 = some s → need_to_reseed s = false
  | 0, off, s0, s, h => by simp [reseedLoop] at h
  | fuel + 1, off, s0, s, h => by
    simp only [reseedLoop] at h
    by_cases hn : need_to_reseed (populateState s0 e off) = true
    · rw [if_pos hn] at h
      exact reseedLoop_some_need e fuel (off + 2 * L) (populateState s0 e off) s h
    · rw [if_neg hn] at h
      cases h
      exact Bool.not_eq_true _ ▸ hn

theorem need_to_reseed_eq_false {L : Nat} (s : XorshiftrWide L) :
    need_to_reseed s = false ↔ noDegeneracy s := by
  rw [← Bool.not_eq_true]
  unfold need_to_reseed noDegeneracy
  simp only [Bool.or_eq_true, List.any_eq_true, List.mem_finRange, true_and,
    beq_iff_eq, Bool.and_eq_true, decide_eq_true_eq]
  push_neg
  constructor
  · rintro ⟨h1, h2⟩
    refine ⟨h1, fun i j hij => ?_⟩
    rcases lt_or_gt_of_ne hij with hlt | hgt
    · exact h2 i j hlt
    · exact ⟨Ne.symm (h2 j i hgt).1, Ne.symm (h2 j i hgt).2⟩
  · rintro ⟨h1, h2⟩
    exact ⟨h1, fun i j hij => h2 i j (ne_of_lt hij)⟩

/-- C5: any state returned by `reseed` or by `new` satisfies the
no-degeneracy invariant: no lane's low and high words coincide, and no two
distinct lanes share either coordinate. -/
theorem seed_invariant {L : Nat} (e : Nat → Nat) (fuel : Nat)
    (s0 s : XorshiftrWide L)
    (h : reseed s0 e fuel = some s ∨ new L e fuel = some s) :
    noDegeneracy s := by
  rcases h with h | h
  · exact (need_to_reseed_eq_false s).mp (reseedLoop_some_need e fuel 0 s0 s h)
  · exact (need_to_reseed_eq_false s).mp
      (reseedLoop_some_need e fuel 0 ⟨fun _ _ => 0⟩ s h)

/-- The identity entropy stream, producing 0, 1, 2, ... -/
def seedSource : Nat → Nat := fun n => n

/-- The all-zero two-lane state. -/
def zeroState2 : XorshiftrWide 2 := ⟨fun _ _ => 0⟩

/-- Witness for C5: reseeding the zero two-lane state from the stream
0, 1, 2, 3 succeeds on the first attempt, and the resulting state
satisfies the invariant. -/
theorem seed_invariant_witness :
    noDegeneracy (populateState zeroState2 seedSource 0) :=
  seed_invariant seedSource 1 zeroState2 (populateState zeroState2 seedSource 0)
    (Or.inl rfl)

theorem populateState_const {L : Nat} (s : XorshiftrWide L) (v off : Nat)
    (b : Fin 2) (i : Fin L) :
    (populateState s (fun _ => v) off).state b i = v :=
  populateState_state s (fun _ => v) off b i

theorem need_to_reseed_const {L : Nat} (hL : 0 < L) (s : XorshiftrWide L)
    (v off : Nat) :
    need_to_reseed (populateState s (fun _ => v) off) = true := by
  unfold need_to_reseed
  rw [Bool.or_eq_true]
  left
  rw [List.any_eq_true]
  exact ⟨⟨0, hL⟩, List.mem_finRange _,
    by rw [populateState_const, populateState_const]; exact beq_self_eq_true v⟩

theorem reseedLoop_const_none {L : Nat} (hL : 0 < L) (v : Nat) :
    ∀ (fuel off : Nat) (s : XorshiftrWide L),
      reseedLoop (fun _ => v) fuel off s = none
  | 0, _, _ => rfl
  | fuel + 1, off, s => by
    simp only [reseedLoop]
    rw [if_pos (need_to_reseed_const hL s v off)]
    exact reseedLoop_const_none hL v fuel (off + 2 * L) (populateState s (fun _ => v) off)

/-- C9: with a constant entropy source and at least one lane, every
population attempt produces a state whose low and high halves are equal
cell-for-cell, so the retry condition holds on every iteration and the
seeding loop never terminates: `reseed` returns `none` for every fuel
bound, and no error value is ever produced. -/
theorem const_entropy_diverges {L : Nat} (hL : 0 < L) (v fuel off : Nat)
    (s : XorshiftrWide L) :
    reseed s (fun _ => v) fuel = none ∧
      (populateState s (fun _ => v) off).state 0 =
        (populateState s (fun _ => v) off).state 1 := by
  refine ⟨reseedLoop_const_none hL v fuel 0 s, funext fun i => ?_⟩
  rw [populateState_const, populateState_const]

/-- Witness for C9: a constant source of 7s never seeds a two-lane
generator within 5 attempts, and each attempt equates the halves. -/
theorem const_entropy_diverges_witness :
    reseed zeroState2 (fun _ => 7) 5 = none ∧
      (populateState zeroState2 (fun _ => 7) 0).state 0 =
        (populateState zeroState2 (fun _ => 7) 0).state 1 :=
  const_entropy_diverges (by decide) 7 5 0 zeroState2

/-- C6: two generators driven by entropy sources that return identical
value sequences produce bit-identical results for any identical sequence
of fill calls: the whole run is a deterministic function of the entropy
values and the buffer lengths. -/
theorem fill_deterministic (L : Nat) (e1 e2 : Nat → Nat) (fuel : Nat)
    (ns : List Nat) (h : ∀ n, e1 n = e2 n) :
    runGenerator L e1 fuel ns = runGenerator L e2 fuel ns := by
  have he : e1 = e2 := funext h
  rw [he]

/-- An entropy stream producing 1, 2, 3, ... -/
def entropyA : Nat → Nat := fun n => n + 1

/-- A syntactically different entropy stream producing the same values. -/
def entropyB : Nat → Nat := fun n => 1 + n

/-- Witness for C6: the two pointwise-equal sources above give identical
runs on a two-lane generator filling buffers of lengths 2 and 3. -/
theorem fill_deterministic_witness :
    runGenerator 2 entropyA 3 [2, 3] = runGenerator 2 entropyB 3 [2, 3] :=
  fill_deterministic 2 entropyA entropyB 3 [2, 3] fun n => Nat.add_comm n 1

theorem fillChunks_state (c : FillConfig) {L : Nat} :
    ∀ (q : Nat) (s : XorshiftrWide L),
      (fillChunks c s q).2.1 = (stepGroup c)^[q] s
  | 0, _ => rfl
  | q + 1, s => by
    show (fillChunks c (stepGroup c s) q).2.1 = _
    rw [fillChunks_state c q (stepGroup c s), Function.iterate_succ_apply]

theorem fillChunks_steps (c : FillConfig) {L : Nat} :
    ∀ (q : Nat) (s : XorshiftrWide L),
      (fillChunks c s q).2.2 = q * L
  | 0, _ => by simp [fillChunks]
  | q + 1, s => by
    show L + (fillChunks c (stepGroup c s) q).2.2 = _
    rw [fillChunks_steps c q (stepGroup c s)]
    ring

/-- The output word the fill algorithm produces at buffer position `p`:
the xor-shift update of lane `p % L`'s low word after `p / L` full-group
steps — i.e. position `p` is served by one recurrence step of lane
`p % L`, in round-robin order. -/
def laneOutputAt (c : FillConfig) {L : Nat} (hL : 0 < L)
    (s : XorshiftrWide L) (p : Nat) : Nat :=
  xorshiftUpdate c (((stepGroup c)^[p / L] s).state 0 ⟨p % L, Nat.mod_lt p hL⟩)

theorem groupOutputs_eq_map (c : FillConfig) {L : Nat} (hL : 0 < L)
    (s : XorshiftrWide L) :
    groupOutputs c s = (List.range L).map (laneOutputAt c hL s) := by
  apply List.ext_getElem
  · simp [groupOutputs]
  · intro p h1 h2
    have hp : p < L := by simpa [groupOutputs] using h1
    simp only [groupOutputs, List.getElem_ofFn, List.getElem_map, List.getElem_range]
    unfold laneOutputAt
    have hA : (stepGroup c)^[p / L] s = s := by
      rw [Nat.div_eq_of_lt hp, Function.iterate_zero_apply]
    have hi : (⟨p % L, Nat.mod_lt p hL⟩ : Fin L) = ⟨p, hp⟩ :=
      Fin.ext (Nat.mod_eq_of_lt hp)
    rw [hA, hi]

theorem laneOutputAt_add (c : FillConfig) {L : Nat} (hL : 0 < L)
    (s : XorshiftrWide L) (p : Nat) :
    laneOutputAt c hL s (L + p) = laneOutputAt c hL (stepGroup c s) p := by
  unfold laneOutputAt
  have hA : (stepGroup c)^[(L + p) / L] s = (stepGroup c)^[p / L] (stepGroup c s) := by
    rw [Nat.add_comm, Nat.add_div_right p hL]
    exact Function.iterate_succ_apply (stepGroup c) (p / L) s
  have hi : (⟨(L + p) % L, Nat.mod_lt (L + p) hL⟩ : Fin L) =
      ⟨p % L, Nat.mod_lt p hL⟩ := Fin.ext (Nat.add_mod_left L p)
  rw [hA, hi]

theorem laneOutputAt_shift (c : FillConfig) {L : Nat} (hL : 0 < L) :
    ∀ (q : Nat) (s : XorshiftrWide L) (p : Nat),
      laneOutputAt c hL s (q * L + p) = laneOutputAt c hL ((stepGroup c)^[q] s) p
  | 0, s, p => by simp
  | q + 1, s, p => by
    have h : (q + 1) * L + p = L + (q * L + p) := by ring
    rw [h, laneOutputAt_add c hL s (q * L + p),
      laneOutputAt_shift c hL q (stepGroup c s) p, Function.iterate_succ_apply]

theorem fillChunks_out (c : FillConfig) {L : Nat} (hL : 0 < L) :
    ∀ (q : Nat) (s : XorshiftrWide L),
      (fillChunks c s q).1 = (List.range (q * L)).map (laneOutputAt c hL s)
  | 0, s => by simp [fillChunks]
  | q + 1, s => by
    show groupOutputs c s ++ (fillChunks c (stepGroup c s) q).1 = _
    rw [fillChunks_out c hL q (stepGroup c s), groupOutputs_eq_map c hL s]
    have h : (q + 1) * L = L + q * L := by ring
    rw [h, List.range_add, List.map_append, List.map_map]
    congr 1
    apply List.map_congr_left
    intro p _
    show laneOutputAt c hL (stepGroup c s) p = laneOutputAt c hL s (L + p)
    rw [laneOutputAt_add c hL s p]

theorem fillChunks_out_add (c : FillConfig) {L : Nat} :
    ∀ (m n : Nat) (s : XorshiftrWide L),
      (fillChunks c s (m + n)).1 =
        (fillChunks c s m).1 ++ (fillChunks c ((stepGroup c)^[m] s) n).1
  | 0, n, s => by simp [fillChunks]
  | m + 1, n, s => by
    have h : m + 1 + n = (m + n) + 1 := by omega
    rw [h]
    show groupOutputs c s ++ (fillChunks c (stepGroup c s) (m + n)).1 = _
    rw [fillChunks_out_add c m n (stepGroup c s), Function.iterate_succ_apply]
    exact (List.append_assoc _ _ _).symm

theorem fill_core_eq (c : FillConfig) {L : Nat} (hL0 : L ≠ 0)
    (s : XorshiftrWide L) (N : Nat) :
    fill_core c s N =
      if N % L = 0 then some (fillChunks c s (N / L))
      else
        some ((fillChunks c s (N / L)).1 ++
            (fillChunks c (fillChunks c s (N / L)).2.1 1).1.take (N % L),
          (fillChunks c (fillChunks c s (N / L)).2.1 1).2.1,
          (fillChunks c s (N / L)).2.2 +
            (fillChunks c (fillChunks c s (N / L)).2.1 1).2.2) := by
  unfold fill_core
  rw [if_neg hL0]

theorem ceilDiv_mul (L q : Nat) (hL : 0 < L) : (L * q + L - 1) / L = q := by
  have h : L * q + L - 1 = L * q + (L - 1) := by omega
  rw [h, Nat.mul_add_div hL, Nat.div_eq_of_lt (by omega), Nat.add_zero]

theorem ceilDiv_mul_add (L q r : Nat) (hL : 0 < L) (hr1 : 0 < r)
    (hr2 : r < L) : (L * q + r + L - 1) / L = q + 1 := by
  have e : L * (q + 1) = L * q + L := by ring
  have h : L * q + r + L - 1 = L * (q + 1) + (r - 1) := by omega
  rw [h, Nat.mul_add_div hL, Nat.div_eq_of_lt (by omega), Nat.add_zero]

/-- C10: `fill_u64_buffer` is total exactly when `LANES ≥ 1` (with
`LANES = 0` every fill call reaches `chunks_exact_mut` with chunk size 0
and panics, modelled as `none`); the default shift amounts 17 and 23 are
strictly below the 64-bit word width; and every full-group step writes a
chunk of exactly `LANES` words, so the unchecked slice-to-array conversion
always receives a slice of exactly `LANES` elements. -/
theorem fill_total {L : Nat} (s : XorshiftrWide L) (N : Nat) :
    ((fill_u64_buffer s N).isSome = decide (0 < L)) ∧
      DEFAULT_SHL < 64 ∧ DEFAULT_SHR < 64 ∧
      (groupOutputs defaultFillConfig s).length = L := by
  refine ⟨?_, by decide, by decide, by simp [groupOutputs]⟩
  by_cases hL : L = 0
  · subst hL
    simp [fill_u64_buffer, fill_core]
  · have h0 : 0 < L := Nat.pos_of_ne_zero hL
    rw [fill_u64_buffer, fill_core_eq defaultFillConfig hL s N]
    simp [h0, apply_ite Option.isSome]

/-- C2 counterexample: with 2 lanes, filling a buffer of length 1 advances
the generator by 2 single-lane recurrence steps (a whole group is stepped
for the tail), not by 1 as the claim requires. -/
theorem fill_steps_ne_len :
    (fill_u64_buffer c2State 1).map (fun r => r.2.2) = some 2 ∧
      (2 : Nat) ≠ 1 := by
  exact ⟨rfl, by decide⟩

/-- C2 (amended): for `L ≥ 1`, fill overwrites all `N` words; the output
word at position `p` is produced by one recurrence step of lane `p % L`,
in the fixed round-robin order (it is the xor-shift update of that lane's
low word after `p / L` full-group steps); and the generator advances by
exactly `L * ⌈N / L⌉` single-lane steps — equal to `N` when `L` divides
`N`, and otherwise `N` rounded up to the next multiple of `L`, because the
tail steps every lane once and discards the unused words. -/
theorem fill_roundRobin {L : Nat} (hL : 0 < L) (s : XorshiftrWide L)
    (N : Nat) :
    (fill_u64_buffer s N).map (fun r => (r.1, r.2.2)) =
      some ((List.range N).map (laneOutputAt defaultFillConfig hL s),
        L * ((N + L - 1) / L)) := by
  have hL0 : L ≠ 0 := Nat.pos_iff_ne_zero.mp hL
  rw [fill_u64_buffer, fill_core_eq defaultFillConfig hL0 s N]
  by_cases hr : N % L = 0
  · rw [if_pos hr, Option.map_some']
    have hdvd : L ∣ N := Nat.dvd_of_mod_eq_zero hr
    have hN : L * (N / L) = N := Nat.mul_div_cancel' hdvd
    have hceil : (N + L - 1) / L = N / L := by
      conv_lhs => rw [← hN]
      exact ceilDiv_mul L (N / L) hL
    refine congrArg some (Prod.ext ?_ ?_)
    · show (fillChunks defaultFillConfig s (N / L)).1 = _
      rw [fillChunks_out defaultFillConfig hL (N / L) s,
        Nat.mul_comm (N / L) L, hN]
    · show (fillChunks defaultFillConfig s (N / L)).2.2 = _
      rw [fillChunks_steps defaultFillConfig (N / L) s, hceil, Nat.mul_comm]
  · rw [if_neg hr, Option.map_some']
    have hrL : N % L < L := Nat.mod_lt N hL
    have hr0 : 0 < N % L := Nat.pos_of_ne_zero hr
    have hN : L * (N / L) + N % L = N := Nat.div_add_mod N L
    have hceil : (N + L - 1) / L = N / L + 1 := by
      conv_lhs => rw [← hN]
      exact ceilDiv_mul_add L (N / L) (N % L) hL hr0 hrL
    refine congrArg some (Prod.ext ?_ ?_)
    · show (fillChunks defaultFillConfig s (N / L)).1 ++
          (fillChunks defaultFillConfig
            (fillChunks defaultFillConfig s (N / L)).2.1 1).1.take (N % L) = _
      rw [fillChunks_state defaultFillConfig (N / L) s]
      have htmp : (fillChunks defaultFillConfig
          ((stepGroup defaultFillConfig)^[N / L] s) 1).1 =
          groupOutputs defaultFillConfig
            ((stepGroup defaultFillConfig)^[N / L] s) := by
        show groupOutputs defaultFillConfig _ ++ ([] : List Nat) = _
        rw [List.append_nil]
      rw [htmp, groupOutputs_eq_map defaultFillConfig hL,
        fillChunks_out defaultFillConfig hL (N / L) s]
      conv_rhs => rw [← hN]
      rw [Nat.mul_comm L (N / L), List.range_add, List.map_append,
        List.map_map, ← List.map_take, List.take_range,
        Nat.min_eq_left (Nat.le_of_lt hrL)]
      congr 1
      apply List.map_congr_left
      intro p _
      show laneOutputAt defaultFillConfig hL
          ((stepGroup defaultFillConfig)^[N / L] s) p =
        laneOutputAt defaultFillConfig hL s (N / L * L + p)
      exact (laneOutputAt_shift defaultFillConfig hL (N / L) s p).symm
    · show (fillChunks defaultFillConfig s (N / L)).2.2 +
          (fillChunks defaultFillConfig
            (fillChunks defaultFillConfig s (N / L)).2.1 1).2.2 = _
      rw [fillChunks_steps defaultFillConfig (N / L) s,
        fillChunks_steps defaultFillConfig 1 _, hceil]
      ring

/-- Witness for C2 (amended) at two lanes, buffer length 3. -/
theorem fill_roundRobin_witness :
    (0 : Nat) < 2 ∧
      (fill_u64_buffer c2State 3).map (fun r => (r.1, r.2.2)) =
        some ((List.range 3).map
            (laneOutputAt defaultFillConfig (by decide) c2State),
          2 * ((3 + 2 - 1) / 2)) :=
  ⟨by decide, fill_roundRobin (by decide) c2State 3⟩

/-- The words a fill call writes, dropping state and step count. -/
def fillOut {L : Nat} (s : XorshiftrWide L) (n : Nat) : Option (List Nat) :=
  (fill_u64_buffer s n).map fun r => r.1

/-- Two consecutive fill calls of lengths `a` then `b`, concatenating the
words they write. -/
def fillTwice {L : Nat} (s : XorshiftrWide L) (a b : Nat) :
    Option (List Nat) :=
  (fill_u64_buffer s a).bind fun r1 =>
    (fill_u64_buffer r1.2.1 b).map fun r2 => r1.1 ++ r2.1

/-- C3 counterexample: with 2 lanes, filling length 1 then length 1 does
not concatenate to the same words as filling length 2 in one call —
the first call's tail step advances both lanes, so the second call reads
an already-advanced state. -/
theorem fill_additivity_cex :
    fillTwice c2State 1 1 ≠ fillOut c2State 2 := by decide

/-- C3 (amended): length additivity holds whenever the first length is a
multiple of the lane count `L` (so the first call takes no tail step);
for other splits the first call's tail advances the state by a whole
extra group and the concatenation differs. -/
theorem fill_additivity {L : Nat} (s : XorshiftrWide L) (a b : Nat)
    (h : L ∣ a) : fillTwice s a b = fillOut s (a + b) := by
  rcases Nat.eq_zero_or_pos L with hL | hL
  · subst hL
    obtain rfl : a = 0 := Nat.eq_zero_of_zero_dvd h
    simp [fillTwice, fillOut, fill_u64_buffer, fill_core]
  · have hL0 : L ≠ 0 := Nat.pos_iff_ne_zero.mp hL
    obtain ⟨q, rfl⟩ := h
    have hdiv : L * q / L = q := Nat.mul_div_cancel_left q hL
    have hmod : L * q % L = 0 := Nat.mul_mod_right L q
    have hdiv2 : (L * q + b) / L = q + b / L := Nat.mul_add_div hL q b
    have hmod2 : (L * q + b) % L = b % L := Nat.mul_add_mod L q b
    unfold fillTwice fillOut fill_u64_buffer
    rw [fill_core_eq defaultFillConfig hL0 s (L * q), hmod, hdiv,
      if_pos rfl, Option.some_bind, fillChunks_state defaultFillConfig q s,
      fill_core_eq defaultFillConfig hL0
        ((stepGroup defaultFillConfig)^[q] s) b,
      fill_core_eq defaultFillConfig hL0 s (L * q + b), hdiv2, hmod2]
    by_cases hb : b % L = 0
    · rw [if_pos hb, if_pos hb, Option.map_some', Option.map_some',
        fillChunks_out_add defaultFillConfig q (b / L) s]
    · rw [if_neg hb, if_neg hb, Option.map_some', Option.map_some',
        fillChunks_out_add defaultFillConfig q (b / L) s,
        fillChunks_state defaultFillConfig (q + b / L) s,
        fillChunks_state defaultFillConfig (b / L)
          ((stepGroup defaultFillConfig)^[q] s),
        ← Function.iterate_add_apply, Nat.add_comm (b / L) q,
        List.append_assoc]

/-- Witness for C3 (amended) at a = 2 (one full two-lane group), b = 1. -/
theorem fill_additivity_witness :
    (2 : Nat) ∣ 2 ∧ fillTwice c2State 2 1 = fillOut c2State (2 + 1) :=
  ⟨⟨1, rfl⟩, fill_additivity c2State 2 1 ⟨1, rfl⟩⟩

/-- C4: filling a buffer of length `L + k` with `0 < k < L` equals, words
and state and step count alike, a length-`L` fill followed by a length-`L`
fill from the advanced state of which only the first `k` words are kept:
the first `L` words match the first fill, the last `k` words match the
first `k` words of the subsequent full-group fill, and tail handling only
discards unused words. -/
theorem tail_equivalence {L : Nat} (s : XorshiftrWide L) (k : Nat)
    (hk : 0 < k) (hkL : k < L) :
    fill_u64_buffer s (L + k) =
      (fill_u64_buffer s L).bind fun r1 =>
        (fill_u64_buffer r1.2.1 L).map fun r2 =>
          (r1.1 ++ r2.1.take k, r2.2.1, r1.2.2 + r2.2.2) := by
  have hL : 0 < L := lt_trans hk hkL
  have hL0 : L ≠ 0 := Nat.pos_iff_ne_zero.mp hL
  have hdiv : (L + k) / L = 1 := by
    apply Nat.div_eq_of_lt_le
    · omega
    · omega
  have hmod : (L + k) % L = k := by
    rw [Nat.add_mod_left]
    exact Nat.mod_eq_of_lt hkL
  have hLdiv : L / L = 1 := Nat.div_self hL
  have hLmod : L % L = 0 := Nat.mod_self L
  unfold fill_u64_buffer
  rw [fill_core_eq defaultFillConfig hL0 s (L + k), hdiv, hmod,
    if_neg (Nat.pos_iff_ne_zero.mp hk),
    fill_core_eq defaultFillConfig hL0 s L, hLdiv, hLmod, if_pos rfl,
    Option.some_bind,
    fill_core_eq defaultFillConfig hL0
      (fillChunks defaultFillConfig s 1).2.1 L,
    hLdiv, hLmod, if_pos rfl, Option.map_some']

/-- Witness for C4 at two lanes, k = 1. -/
theorem tail_equivalence_witness :
    (0 : Nat) < 1 ∧ (1 : Nat) < 2 ∧
      fill_u64_buffer c2State (2 + 1) =
        ((fill_u64_buffer c2State 2).bind fun r1 =>
          (fill_u64_buffer r1.2.1 2).map fun r2 =>
            (r1.1 ++ r2.1.take 1, r2.2.1, r1.2.2 + r2.2.2)) :=
  ⟨by decide, by decide, tail_equivalence c2State 1 (by decide) (by decide)⟩
